import Mathlib

/-!
Verification development for the laundry-os-api repository.

The repository contains two parallel implementations of a "command
mailbox" protocol plus a per-device stats store:

* `src/main.go` — a volatile, in-process backend (`startMachine`,
  `getLatest`) using two mutex-guarded Go maps `latestByDevice` and
  `lastServedAt`.
* `src/laundryStart/main.go`, `src/laundryLatest/main.go`,
  `src/laundryGetStats/main.go`, `src/laundryUpdateStats/main.go` —
  durable AWS-Lambda backends over a DynamoDB table keyed by
  `deviceId`.

The handlers are shallowly embedded as pure Lean functions from an
explicit state (association lists standing for the Go maps / the
DynamoDB table) and the decoded request to the new state and the HTTP
response.  Machine integers (`int64`, and Go `int`, which is 64-bit on
the lambda targets) are modelled as `Int`; the one place where
overflow matters (`mustInt64` in `src/laundryLatest/main.go`) reduces
explicitly modulo `2 ^ 64`.  DynamoDB `N` attribute values are kept as
their raw decimal strings where the code manipulates them as strings
(the command table), and as exact numeric values where only their
numeric content is observable (the stats table, whose `float64`
monetary field is modelled as `ℚ`, with `strconv.FormatFloat(x, 'f',
2, 64)` modelled as rounding to two decimal places).

HTTP-method dispatch (405 responses), JSON decoding failures and
storage-backend failures (500 responses) are plumbing outside the
modelled state and are not represented; each handler is modelled on a
successfully decoded request with the store available.
-/

namespace LaundryOS

/-- Association-list lookup, modelling a read of a Go map or a DynamoDB
`GetItem` on the table key. -/
def alookup {α : Type} : List (String × α) → String → Option α
  | [], _ => none
  | (k', v) :: rest, k => if k' = k then some v else alookup rest k

/-- Association-list overwrite, modelling a Go map assignment or a
DynamoDB `PutItem` (unconditional replace of the whole item). -/
def aset {α : Type} (m : List (String × α)) (k : String) (v : α) :
    List (String × α) :=
  (k, v) :: m.filter (fun p => !(p.1 == k))

theorem alookup_filter_ne {α : Type} (m : List (String × α)) (k k' : String)
    (h : k' ≠ k) :
    alookup (m.filter (fun p => !(p.1 == k))) k' = alookup m k' := by
  induction m with
  | nil => rfl
  | cons p rest ih =>
    by_cases hp : p.1 = k
    · have hb : (!(p.1 == k)) = false := by simp [hp]
      have hne : ¬ p.1 = k' := fun hk => h (hk ▸ hp)
      simp [List.filter, hb, alookup, ih, if_neg hne]
    · have : (!(p.1 == k)) = true := by simp [hp]
      cases p with
      | mk a b =>
        simp only [List.filter, this, alookup]
        by_cases ha : a = k'
        · simp [ha]
        · simp [ha, ih]

@[simp] theorem alookup_aset_self {α : Type} (m : List (String × α))
    (k : String) (v : α) : alookup (aset m k v) k = some v := by
  simp [aset, alookup]

theorem alookup_aset_ne {α : Type} (m : List (String × α)) (k k' : String)
    (v : α) (h : k' ≠ k) : alookup (aset m k v) k' = alookup m k' := by
  simp only [aset, alookup]
  rw [if_neg (fun hk => h hk.symm), alookup_filter_ne m k k' h]

/-- Model of Go `strings.TrimSpace`: drop whitespace from both ends. -/
def trimSpace (s : String) : String :=
  ⟨((s.data.dropWhile Char.isWhitespace).reverse.dropWhile
      Char.isWhitespace).reverse⟩

/-- Model of `subtle.ConstantTimeCompare(a, b) == 1` (`timingSafeEq` in
every handler file): value-wise it is byte-for-byte string equality;
the constant-time execution property itself is a timing property with
no value-level content. -/
def timingSafeEq (a b : String) : Bool := a == b

theorem timingSafeEq_iff (a b : String) : timingSafeEq a b = true ↔ a = b := by
  simp [timingSafeEq]

/-- JSON scalar values, enough to distinguish the shapes the handlers
put into `map[string]any` response bodies. -/
inductive JsonVal where
  | str (s : String)
  | num (n : Int)
  | boolean (b : Bool)
deriving DecidableEq

/-- True exactly on JSON numbers (what the spec calls a JSON integer
here, all numbers emitted being integers). -/
def JsonVal.isNumber : JsonVal → Bool
  | .num _ => true
  | _ => false

/-- Observable command fields serialized in a poll response
(`Command` in `src/laundryLatest/main.go`; the volatile backend's
`Command` serializes the same four fields, `token` being empty and
omitted). -/
structure CmdOut where
  deviceId : String
  type : String
  durationMinutes : Int
  createdAt : Int
deriving DecidableEq

/-- Observable stats fields serialized by `src/laundryGetStats/main.go`
(`updatedAt` is not read back; `token` is empty and omitted). -/
structure StatsOut where
  deviceId : String
  totalSpent : ℚ
  numRuns : Int
deriving DecidableEq

/-- Response bodies: a generic JSON object (error bodies and the
`map[string]any` success bodies), a poll response `{"command": ...}`,
or a stats record. -/
inductive Body where
  | obj (fields : List (String × JsonVal))
  | latest (cmd : Option CmdOut)
  | stats (st : StatsOut)
deriving DecidableEq

/-- An HTTP response as the handlers build it: status code plus JSON
body. -/
structure Response where
  status : Nat
  body : Body
deriving DecidableEq

/-- Field access in an object body, for stating what a response body
holds at a key. -/
def Body.field : Body → String → Option JsonVal
  | .obj fields, k => alookup fields k
  | _, _ => none

/-- Shared shape of the `{"error": msg}` bodies. -/
def errBody (msg : String) : Body := .obj [("error", .str msg)]

/-- True when a poll response actually delivers a command
(`{"command": {...}}` rather than `{"command": null}` or an error). -/
def isDelivery (r : Response) : Bool :=
  match r.body with
  | .latest (some _) => true
  | _ => false

/-! ## Volatile backend: `src/main.go` -/

namespace Volatile

/-- The `Command` struct of `src/main.go` (the `token` field is request
material, blanked before persisting). -/
structure Command where
  deviceId : String
  type : String
  durationMinutes : Int
  createdAt : Int
  token : String
deriving DecidableEq

/-- The mutex-guarded global maps `latestByDevice` and `lastServedAt`
of `src/main.go` lines 27-31.  A key absent from `lastServedAt` reads
as the Go zero value `0`. -/
structure State where
  latestByDevice : List (String × Command)
  lastServedAt : List (String × Int)
deriving DecidableEq

/-- Go map read with zero-value default: `lastServedAt[deviceID]`. -/
def State.served (st : State) (deviceId : String) : Int :=
  (alookup st.lastServedAt deviceId).getD 0

/-- The decoded JSON body of a `/start` request (missing JSON fields
decode to Go zero values, so a missing `deviceId` is `""`). -/
structure StartRequest where
  deviceId : String
  type : String
  durationMinutes : Int
  token : String
deriving DecidableEq

/-- Handler `startMachine` of `src/main.go` lines 48-88, after JSON
decoding: token check, then `deviceId` non-empty (no trimming in this
backend), then type and duration validation, then the map write under
the mutex.  `now` stands for `time.Now().UnixMilli()`. -/
def startMachine (secret : String) (st : State) (req : StartRequest)
    (now : Int) : State × Response :=
  if req.token = "" ∨ ¬ timingSafeEq req.token secret then
    (st, ⟨401, errBody "unauthorized"⟩)
  else if req.deviceId = "" then
    (st, ⟨400, errBody "deviceId required"⟩)
  else if req.type ≠ "wash" ∧ req.type ≠ "dry" then
    (st, ⟨400, errBody "type must be wash or dry"⟩)
  else if req.durationMinutes ≤ 0 then
    (st, ⟨400, errBody "duration must be greater than 0 minutes"⟩)
  else
    ({ st with
        latestByDevice := aset st.latestByDevice req.deviceId
          ⟨req.deviceId, req.type, req.durationMinutes, now, ""⟩ },
     ⟨200, .obj [("ok", .boolean true), ("createdAt", .num now)]⟩)

/-- Handler `getLatest` of `src/main.go` lines 90-125: `deviceId`
validation first, then the token check, then under the mutex the
lookup, the watermark comparison `lastServedAt[deviceID] >=
cmd.CreatedAt`, and on delivery the watermark write. -/
def getLatest (secret : String) (st : State) (deviceId token : String) :
    State × Response :=
  if deviceId = "" then
    (st, ⟨400, errBody "deviceId required"⟩)
  else if token = "" ∨ ¬ timingSafeEq token secret then
    (st, ⟨401, errBody "unauthorized"⟩)
  else
    match alookup st.latestByDevice deviceId with
    | none => (st, ⟨200, .latest none⟩)
    | some cmd =>
      if st.served deviceId ≥ cmd.createdAt then
        (st, ⟨200, .latest none⟩)
      else
        ({ st with lastServedAt := aset st.lastServedAt deviceId cmd.createdAt },
         ⟨200, .latest (some ⟨cmd.deviceId, cmd.type, cmd.durationMinutes,
            cmd.createdAt⟩)⟩)

end Volatile

/-! ## Decimal strings and `mustInt64` -/

/-- The ASCII digit character for a digit value. -/
def digitChar (d : Nat) : Char := Char.ofNat (48 + d)

/-- Little-endian decimal digit characters of `n`, with explicit fuel
to keep the recursion structural (`n` itself is enough fuel because
`n / 10 < n`). -/
def natDecimalAux : Nat → Nat → List Char
  | 0, _ => []
  | fuel + 1, n =>
    if n = 0 then [] else digitChar (n % 10) :: natDecimalAux fuel (n / 10)

/-- Decimal string of a natural number, modelling
`strconv.Itoa` / `strconv.FormatInt(·, 10)` on non-negative values. -/
def natDecimal (n : Nat) : String :=
  if n = 0 then "0" else ⟨(natDecimalAux n n).reverse⟩

theorem natDecimalAux_eq : ∀ fuel n : Nat, n ≤ fuel →
    natDecimalAux fuel n = (Nat.digits 10 n).map digitChar := by
  intro fuel
  induction fuel with
  | zero =>
    intro n hn
    interval_cases n
    simp [natDecimalAux]
  | succ fuel ih =>
    intro n hn
    by_cases h0 : n = 0
    · subst h0
      simp [natDecimalAux]
    · rw [natDecimalAux, if_neg h0,
        Nat.digits_def' (by norm_num : 1 < 10) (Nat.pos_of_ne_zero h0),
        List.map_cons]
      congr 1
      have hdiv : n / 10 < n := Nat.div_lt_self (Nat.pos_of_ne_zero h0) (by norm_num)
      exact ih (n / 10) (by omega)

theorem natDecimal_eq (n : Nat) :
    natDecimal n
      = if n = 0 then "0" else ⟨((Nat.digits 10 n).map digitChar).reverse⟩ := by
  unfold natDecimal
  by_cases h : n = 0
  · simp [h]
  · rw [if_neg h, if_neg h, natDecimalAux_eq n n le_rfl]

/-- Model of `strconv.FormatInt(n, 10)` (and `strconv.Itoa`) on `Int`. -/
def formatInt (n : Int) : String :=
  if n < 0 then "-" ++ natDecimal n.natAbs else natDecimal n.natAbs

/-- ASCII decimal digit test, as the rune comparisons
`c < '0' || c > '9'` in `mustInt64` decide it (negated). -/
def isDigitCh (c : Char) : Bool := 48 ≤ c.toNat && c.toNat ≤ 57

/-- Loop body of `mustInt64` (`src/laundryLatest/main.go` lines
112-121): fold over the characters, stopping at the first non-digit;
the Go `int64` accumulation `n = n*10 + int64(c-'0')` wraps, which the
explicit reduction modulo `2 ^ 64` makes visible. -/
def mustInt64Aux : List Char → Nat → Nat
  | [], n => n
  | c :: cs, n =>
    if c.toNat < 48 ∨ 57 < c.toNat then n
    else mustInt64Aux cs ((n * 10 + (c.toNat - 48)) % 2 ^ 64)

/-- Reinterpret an unsigned 64-bit residue as a signed `int64`. -/
def toInt64 (n : Nat) : Int :=
  if n < 2 ^ 63 then (n : Int) else (n : Int) - 2 ^ 64

/-- The function `mustInt64` of `src/laundryLatest/main.go`: silent
best-effort decimal decoding with `int64` wraparound and no error
path. -/
def mustInt64 (s : String) : Int := toInt64 (mustInt64Aux s.data 0)

/-- Decimal accumulation without any overflow, used to state what the
claim calls the integer value of a digit run. -/
def decFold (l : List Char) (a : Nat) : Nat :=
  l.foldl (fun n c => n * 10 + (c.toNat - 48)) a

/-- Stated from the claim's words: the integer value of the longest
leading run of decimal digits of a string (0 when the string starts
with a non-digit). -/
def leadingRunValue (s : String) : Nat :=
  decFold (s.data.takeWhile isDigitCh) 0

/-! ## Durable backend: the four lambda handlers -/

/-- A DynamoDB item of the command table, as the handlers read and
write it: `type` is an `S` attribute, `durationMinutes`, `createdAt`
and `servedAt` are `N` attributes kept as their raw decimal strings.
`none` models the attribute being absent (or, on read, of the wrong
attribute type, which the handlers' type assertions treat the same
way). -/
structure Item where
  type : Option String
  durationMinutes : Option String
  createdAt : Option String
  servedAt : Option String
deriving DecidableEq

namespace LaundryStart

/-- The decoded request body of `src/laundryStart/main.go`
(`Command` there: `deviceId`, `type`, `durationMinutes`, `token`). -/
structure StartRequest where
  deviceId : String
  type : String
  durationMinutes : Int
  token : String
deriving DecidableEq

/-- Handler of `src/laundryStart/main.go` lines 50-93: trim the
deviceId, auth (including the explicit empty-secret check), validate,
then `PutItem` a fresh item whose `servedAt` is intentionally absent.
`now` is `time.Now().UnixMilli()`. -/
def handler (secret : String) (table : List (String × Item))
    (req : StartRequest) (now : Int) : List (String × Item) × Response :=
  let deviceId := trimSpace req.deviceId
  if req.token = "" ∨ secret = "" ∨ ¬ timingSafeEq req.token secret then
    (table, ⟨401, errBody "unauthorized"⟩)
  else if deviceId = "" then
    (table, ⟨400, errBody "deviceId required"⟩)
  else if req.type ≠ "wash" ∧ req.type ≠ "dry" then
    (table, ⟨400, errBody "type must be wash or dry"⟩)
  else if req.durationMinutes ≤ 0 then
    (table, ⟨400, errBody "durationMinutes must be > 0"⟩)
  else
    (aset table deviceId
      ⟨some req.type, some (formatInt req.durationMinutes),
       some (formatInt now), none⟩,
     ⟨200, .obj [("ok", .boolean true), ("createdAt", .num now)]⟩)

end LaundryStart

namespace LaundryLatest

/-- Decoding of a read item into the response `Command`, from
`src/laundryLatest/main.go` lines 84-94: fields keep their Go zero
value when the attribute is absent, numeric attributes go through
`mustInt64` (the `int(...)` conversion for `durationMinutes` is the
identity, Go `int` being 64-bit on the lambda targets). -/
def decodeItem (deviceId : String) (item : Item) : CmdOut :=
  { deviceId := deviceId
    type := item.type.getD ""
    durationMinutes := (item.durationMinutes.map mustInt64).getD 0
    createdAt := (item.createdAt.map mustInt64).getD 0 }

/-- The unconditional best-effort mark-served write of
`src/laundryLatest/main.go` lines 96-107: `UpdateItem SET servedAt =
:now` keeps the other attributes and creates a bare item when the key
is absent. -/
def markServed (table : List (String × Item)) (deviceId : String)
    (now : Int) : List (String × Item) :=
  match alookup table deviceId with
  | some item => aset table deviceId { item with servedAt := some (formatInt now) }
  | none => aset table deviceId ⟨none, none, none, some (formatInt now)⟩

/-- Handler of `src/laundryLatest/main.go` lines 54-110: trim the
deviceId, validate it before auth, read the item, return null when it
is absent or carries a `servedAt` tombstone, otherwise decode it,
unconditionally mark it served, and return it.  The model assumes the
store calls succeed (the swallowed `UpdateItem` error and the 500 path
are storage-failure plumbing). -/
def handler (secret : String) (table : List (String × Item))
    (deviceId0 token : String) (now : Int) :
    List (String × Item) × Response :=
  let deviceId := trimSpace deviceId0
  if deviceId = "" then
    (table, ⟨400, errBody "deviceId required"⟩)
  else if token = "" ∨ secret = "" ∨ ¬ timingSafeEq token secret then
    (table, ⟨401, errBody "unauthorized"⟩)
  else
    match alookup table deviceId with
    | none => (table, ⟨200, .latest none⟩)
    | some item =>
      if item.servedAt.isSome then
        (table, ⟨200, .latest none⟩)
      else
        (markServed table deviceId now,
         ⟨200, .latest (some (decodeItem deviceId item))⟩)

end LaundryLatest

/-- A DynamoDB item of the stats table as written by
`src/laundryUpdateStats/main.go`: all three fields are `N` attributes;
their decimal strings are modelled by their exact numeric values
(`totalSpent` as `ℚ`), `strconv.ParseFloat` / `strconv.ParseInt` on
read being their inverses on these well-formed strings. -/
structure StatsItem where
  totalSpent : ℚ
  numRuns : Int
  updatedAt : Int
deriving DecidableEq

/-- Rounding to two decimal places, modelling
`strconv.FormatFloat(x, 'f', 2, 64)` on the (rational-modelled)
`float64` monetary amount. -/
def round2 (x : ℚ) : ℚ := (⌊x * 100 + 1 / 2⌋ : ℤ) / 100

namespace LaundryUpdateStats

/-- The decoded request body of `src/laundryUpdateStats/main.go`
(`Stats` there plus the token). -/
structure UpdateRequest where
  deviceId : String
  totalSpent : ℚ
  numRuns : Int
  token : String
deriving DecidableEq

/-- Handler of `src/laundryUpdateStats/main.go` lines 49-88: trim the
deviceId, auth first, then the deviceId check, then `PutItem` the full
record with `totalSpent` formatted to two decimals and `updatedAt` set
to now; the success body carries `updatedAtStr`, a JSON string. -/
def handler (secret : String) (table : List (String × StatsItem))
    (req : UpdateRequest) (now : Int) :
    List (String × StatsItem) × Response :=
  let deviceId := trimSpace req.deviceId
  if req.token = "" ∨ secret = "" ∨ ¬ timingSafeEq req.token secret then
    (table, ⟨401, errBody "unauthorized"⟩)
  else if deviceId = "" then
    (table, ⟨400, errBody "deviceId required"⟩)
  else
    (aset table deviceId ⟨round2 req.totalSpent, req.numRuns, now⟩,
     ⟨200, .obj [("ok", .boolean true), ("lastUpdatedAt", .str (formatInt now))]⟩)

end LaundryUpdateStats

namespace LaundryGetStats

/-- Handler of `src/laundryGetStats/main.go` lines 48-98: trim the
deviceId, validate it before auth, 404 when no record exists,
otherwise return the stored numerics parsed back, with `deviceId`
echoed from the query.  The table is not modified. -/
def handler (secret : String) (table : List (String × StatsItem))
    (deviceId0 token : String) : Response :=
  let deviceId := trimSpace deviceId0
  if deviceId = "" then
    ⟨400, errBody "deviceId required"⟩
  else if token = "" ∨ secret = "" ∨ ¬ timingSafeEq token secret then
    ⟨401, errBody "unauthorized"⟩
  else
    match alookup table deviceId with
    | none => ⟨404, errBody "not found"⟩
    | some item => ⟨200, .stats ⟨deviceId, item.totalSpent, item.numRuns⟩⟩

end LaundryGetStats

/-! ## Arithmetic facts about the decimal codecs -/

theorem decFold_mod (M : Nat) (l : List Char) :
    ∀ a b : Nat, a % M = b % M → decFold l a % M = decFold l b % M := by
  induction l with
  | nil => intro a b h; simpa [decFold] using h
  | cons c cs ih =>
    intro a b h
    have hstep : (a * 10 + (c.toNat - 48)) % M
        = (b * 10 + (c.toNat - 48)) % M :=
      Nat.ModEq.add_right _ (Nat.ModEq.mul_right 10 h)
    exact ih _ _ hstep

theorem mustInt64Aux_eq (cs : List Char) :
    ∀ n : Nat, n < 2 ^ 64 →
      mustInt64Aux cs n = decFold (cs.takeWhile isDigitCh) n % 2 ^ 64 := by
  induction cs with
  | nil =>
    intro n hn
    simp only [mustInt64Aux, List.takeWhile, decFold, List.foldl_nil]
    exact (Nat.mod_eq_of_lt hn).symm
  | cons c cs ih =>
    intro n hn
    by_cases hc : c.toNat < 48 ∨ 57 < c.toNat
    · have hd : isDigitCh c = false := by
        simp only [isDigitCh, Bool.and_eq_false_iff, decide_eq_false_iff_not,
          not_le]
        omega
      simp only [mustInt64Aux, if_pos hc, List.takeWhile_cons, hd, if_false,
        Bool.false_eq_true, decFold, List.foldl_nil]
      exact (Nat.mod_eq_of_lt hn).symm
    · have hd : isDigitCh c = true := by
        simp only [isDigitCh, Bool.and_eq_true, decide_eq_true_eq]
        omega
      have hlt : (n * 10 + (c.toNat - 48)) % 2 ^ 64 < 2 ^ 64 :=
        Nat.mod_lt _ (by norm_num)
      have h1 : mustInt64Aux (c :: cs) n
          = mustInt64Aux cs ((n * 10 + (c.toNat - 48)) % 2 ^ 64) := by
        simp [mustInt64Aux, hc]
      rw [h1, ih _ hlt,
        decFold_mod (2 ^ 64) (cs.takeWhile isDigitCh) _ (n * 10 + (c.toNat - 48))
          (Nat.mod_mod_of_dvd _ dvd_rfl)]
      simp [List.takeWhile_cons, hd, decFold]

theorem mustInt64_eq_leadingRun (s : String) :
    mustInt64 s = toInt64 (leadingRunValue s % 2 ^ 64) := by
  unfold mustInt64 leadingRunValue
  rw [mustInt64Aux_eq s.data 0 (by norm_num)]

theorem toNat_digitChar (d : Nat) (h : d < 10) :
    (digitChar d).toNat = 48 + d := by
  interval_cases d <;> decide

theorem isDigitCh_digitChar (d : Nat) (h : d < 10) :
    isDigitCh (digitChar d) = true := by
  interval_cases d <;> decide

theorem takeWhile_all {p : Char → Bool} :
    ∀ l : List Char, (∀ c ∈ l, p c = true) → l.takeWhile p = l := by
  intro l
  induction l with
  | nil => intro _; rfl
  | cons c cs ih =>
    intro hall
    rw [List.takeWhile_cons, hall c (by simp), ih fun c hc => hall c (by simp [hc])]
    simp

theorem decFold_digits (L : List Nat) (hL : ∀ d ∈ L, d < 10) :
    ∀ a : Nat, decFold ((L.map digitChar).reverse) a
      = a * 10 ^ L.length + Nat.ofDigits 10 L := by
  induction L with
  | nil => intro a; simp [decFold, Nat.ofDigits_nil]
  | cons d L ih =>
    intro a
    have hd : d < 10 := hL d (by simp)
    have hL' : ∀ e ∈ L, e < 10 := fun e he => hL e (by simp [he])
    have hsplit : ((d :: L).map digitChar).reverse
        = (L.map digitChar).reverse ++ [digitChar d] := by
      simp
    rw [hsplit]
    unfold decFold
    rw [List.foldl_append]
    have hfold := ih hL' a
    unfold decFold at hfold
    rw [hfold]
    simp only [List.foldl_cons, List.foldl_nil, toNat_digitChar d hd,
      Nat.ofDigits_cons, List.length_cons]
    have : 48 + d - 48 = d := by omega
    rw [this]
    ring

theorem leadingRunValue_natDecimal (m : Nat) :
    leadingRunValue (natDecimal m) = m := by
  by_cases h : m = 0
  · subst h; decide
  · rw [natDecimal_eq]
    unfold leadingRunValue
    rw [if_neg h]
    have hdig : ∀ d ∈ Nat.digits 10 m, d < 10 := fun d hd =>
      Nat.digits_lt_base (by norm_num) hd
    have hall : ∀ c ∈ ((Nat.digits 10 m).map digitChar).reverse,
        isDigitCh c = true := by
      intro c hc
      rw [List.mem_reverse, List.mem_map] at hc
      obtain ⟨d, hd, hcd⟩ := hc
      exact hcd ▸ isDigitCh_digitChar d (hdig d hd)
    show decFold ((((Nat.digits 10 m).map digitChar).reverse).takeWhile
      isDigitCh) 0 = m
    rw [takeWhile_all _ hall, decFold_digits _ hdig 0]
    simp [Nat.ofDigits_digits]

theorem mustInt64_natDecimal (m : Nat) (h : m < 2 ^ 63) :
    mustInt64 (natDecimal m) = (m : Int) := by
  rw [mustInt64_eq_leadingRun, leadingRunValue_natDecimal]
  rw [Nat.mod_eq_of_lt (lt_trans h (by norm_num))]
  unfold toInt64
  rw [if_pos h]

theorem mustInt64_formatInt (n : Int) (h0 : 0 ≤ n) (h : n < 2 ^ 63) :
    mustInt64 (formatInt n) = n := by
  unfold formatInt
  rw [if_neg (not_lt.mpr h0)]
  have hlt : n.natAbs < 2 ^ 63 := by omega
  rw [mustInt64_natDecimal n.natAbs hlt, Int.natAbs_of_nonneg h0]

/-! ## Instrumented sequential traces of the mailbox protocol

A per-device trace interleaves valid submits and polls.  To speak of
"command instances" (two submits may carry equal field values, in
particular equal `createdAt` stamps when the millisecond clock does
not advance), each submit is tagged with a ghost instance id; the
transition logic on the non-ghost part is exactly the handlers'. -/

/-- Events of a sequential per-device trace: a submit that passed
validation (`now` is the `createdAt` the service assigns) or a poll
(`now` on `take` is the durable backend's mark-served stamp, unused by
the volatile backend).  The clock is an arbitrary external input; no
monotonicity is assumed. -/
inductive Ev where
  | submit (type : String) (dur : Int) (now : Int)
  | take (now : Int)
deriving DecidableEq

/-- Discriminator for submit events. -/
def Ev.isSubmit : Ev → Bool
  | .submit _ _ _ => true
  | .take _ => false

/-- Ghost instance ids of the successful (non-empty) poll outputs of a
trace. -/
def takenIds {C : Type} (os : List (Option (Nat × C))) : List Nat :=
  os.filterMap fun o => o.map Prod.fst

theorem takenIds_cons {C : Type} (o : Option (Nat × C))
    (os : List (Option (Nat × C))) :
    takenIds (o :: os) = takenIds [o] ++ takenIds os := by
  cases o <;> simp [takenIds]

theorem takenIds_one_none {C : Type} :
    takenIds ([none] : List (Option (Nat × C))) = [] := rfl

theorem takenIds_one_some {C : Type} (kc : Nat × C) :
    takenIds [some kc] = [kc.1] := rfl

namespace VolTrace

/-- Ghost-instrumented per-device view of the volatile mailbox: the
device's slot of `latestByDevice` tagged with an instance id, the
`lastServedAt` watermark (Go zero value 0 initially), and the next
fresh id. -/
structure GDev where
  latest : Option (Nat × Volatile.Command)
  lastServed : Int
  nextId : Nat
deriving DecidableEq

/-- Initial per-device state: no command, watermark 0. -/
def gInit : GDev := ⟨none, 0, 0⟩

/-- One trace step.  A submit performs the map write of `startMachine`
(src/main.go lines 80-85): the slot is unconditionally replaced, the
watermark is untouched.  A take performs the check-and-mark of
`getLatest` (src/main.go lines 112-124): deliver iff the watermark is
strictly below the command's `createdAt`, marking by raising the
watermark to it. -/
def gStep (d : String) (g : GDev) :
    Ev → GDev × Option (Nat × Volatile.Command)
  | .submit ty dur now =>
    ({ latest := some (g.nextId, ⟨d, ty, dur, now, ""⟩),
       lastServed := g.lastServed, nextId := g.nextId + 1 }, none)
  | .take _ =>
    match g.latest with
    | none => (g, none)
    | some kc =>
      if g.lastServed ≥ kc.2.createdAt then (g, none)
      else ({ g with lastServed := kc.2.createdAt }, some kc)

/-- Run a trace, collecting the per-event outputs. -/
def gRun (d : String) (g : GDev) :
    List Ev → GDev × List (Option (Nat × Volatile.Command))
  | [] => (g, [])
  | e :: es =>
    let s := gStep d g e
    let r := gRun d s.1 es
    (r.1, s.2 :: r.2)

/-- State after a trace from the initial state. -/
def gAfter (d : String) (es : List Ev) : GDev := (gRun d gInit es).1

/-- Outputs of a trace from the initial state. -/
def gOuts (d : String) (es : List Ev) :
    List (Option (Nat × Volatile.Command)) := (gRun d gInit es).2

theorem gRun_append (d : String) (a : List Ev) :
    ∀ (b : List Ev) (g : GDev),
      (gRun d g (a ++ b)).1 = (gRun d (gRun d g a).1 b).1 := by
  induction a with
  | nil => intro b g; rfl
  | cons e a ih =>
    intro b g
    simp only [List.cons_append, gRun]
    exact ih b (gStep d g e).1

/-- Trace invariant tying outputs to the ghost state: output ids are
below the fresh-id counter, the pending instance's id is below it, a
pending instance whose id was already output is marked served by the
watermark, and the output ids are pairwise distinct. -/
def GInv (g : GDev) (outs : List Nat) : Prop :=
  (∀ k ∈ outs, k < g.nextId) ∧
  (∀ kc : Nat × Volatile.Command, g.latest = some kc → kc.1 < g.nextId) ∧
  (∀ kc : Nat × Volatile.Command, g.latest = some kc → kc.1 ∈ outs →
    kc.2.createdAt ≤ g.lastServed) ∧
  outs.Nodup

theorem gStep_inv (d : String) (g : GDev) (e : Ev) (outs : List Nat)
    (h : GInv g outs) :
    GInv (gStep d g e).1 (outs ++ takenIds [(gStep d g e).2]) := by
  obtain ⟨h1, h2, h3, h4⟩ := h
  cases e with
  | submit ty dur now =>
    simp only [gStep, takenIds_one_none, List.append_nil]
    refine ⟨fun k hk => Nat.lt_succ_of_lt (h1 k hk), ?_, ?_, h4⟩
    · intro kc hkc
      injection hkc with hkc
      rw [← hkc]
      exact Nat.lt_succ_self _
    · intro kc hkc hmem
      injection hkc with hkc
      rw [← hkc] at hmem
      exact absurd (h1 _ hmem) (Nat.lt_irrefl _)
  | take now =>
    cases hl : g.latest with
    | none =>
      simp only [gStep, hl, takenIds_one_none, List.append_nil]
      exact ⟨h1, h2, h3, h4⟩
    | some kc =>
      by_cases hb : g.lastServed ≥ kc.2.createdAt
      · simp only [gStep, hl, if_pos hb, takenIds_one_none, List.append_nil]
        exact ⟨h1, h2, h3, h4⟩
      · have hni : kc.1 ∉ outs := fun hmem => hb (h3 kc hl hmem)
        simp only [gStep, hl, if_neg hb, takenIds_one_some]
        refine ⟨?_, ?_, ?_, ?_⟩
        · intro k hk
          rcases List.mem_append.mp hk with hk | hk
          · exact h1 k hk
          · rw [List.mem_singleton.mp hk]
            exact h2 kc hl
        · intro kc' hkc'
          have heq : some kc = some kc' := hkc'
          injection heq with heq
          rw [← heq]
          exact h2 kc hl
        · intro kc' hkc' _
          have heq : some kc = some kc' := hkc'
          injection heq with heq
          rw [← heq]
        · rw [List.nodup_append]
          exact ⟨h4, List.nodup_singleton _,
            fun a ha hb' => hni ((List.mem_singleton.mp hb') ▸ ha)⟩

theorem gRun_inv (d : String) : ∀ (es : List Ev) (g : GDev) (outs : List Nat),
    GInv g outs → GInv (gRun d g es).1 (outs ++ takenIds (gRun d g es).2) := by
  intro es
  induction es with
  | nil =>
    intro g outs h
    simpa [gRun, takenIds] using h
  | cons e es ih =>
    intro g outs h
    have hstep := gStep_inv d g e outs h
    have hrest := ih (gStep d g e).1 (outs ++ takenIds [(gStep d g e).2]) hstep
    simp only [gRun]
    rw [takenIds_cons, ← List.append_assoc]
    exact hrest

theorem gInit_inv : GInv gInit [] := by
  refine ⟨?_, ?_, ?_, ?_⟩ <;> simp [gInit, GInv]

/-- Serve-at-most-once over any sequential volatile trace: the
instance ids of successful polls are pairwise distinct. -/
theorem outs_nodup (d : String) (es : List Ev) :
    (takenIds (gOuts d es)).Nodup := by
  have h := gRun_inv d es gInit [] gInit_inv
  simpa [gOuts] using h.2.2.2

/-- A device state whose pending command (if any) is already covered by
the watermark: every further take returns empty until a new submit. -/
def Blocked (g : GDev) : Prop :=
  ∀ kc : Nat × Volatile.Command, g.latest = some kc →
    kc.2.createdAt ≤ g.lastServed

theorem take_some_blocked (d : String) (g : GDev) (now : Int)
    (kc : Nat × Volatile.Command)
    (h : (gStep d g (.take now)).2 = some kc) :
    Blocked (gStep d g (.take now)).1 := by
  cases hl : g.latest with
  | none => simp [gStep, hl] at h
  | some kc0 =>
    by_cases hb : g.lastServed ≥ kc0.2.createdAt
    · simp [gStep, hl, if_pos hb] at h
    · intro kc' hkc'
      simp only [gStep, hl, if_neg hb] at hkc' ⊢
      injection hkc' with hkc'
      rw [← hkc']

theorem blocked_take (d : String) (g : GDev) (now : Int) (h : Blocked g) :
    gStep d g (.take now) = (g, none) := by
  cases hl : g.latest with
  | none => simp [gStep, hl]
  | some kc => simp [gStep, hl, if_pos (h kc hl)]

theorem blocked_run (d : String) : ∀ (es : List Ev) (g : GDev),
    Blocked g → (∀ e ∈ es, e.isSubmit = false) → (gRun d g es).1 = g := by
  intro es
  induction es with
  | nil => intro g _ _; rfl
  | cons e es ih =>
    intro g hg hns
    cases e with
    | submit ty dur now =>
      simpa [Ev.isSubmit] using hns (Ev.submit ty dur now) (List.mem_cons_self _ _)
    | take now =>
      simp only [gRun, blocked_take d g now hg]
      exact ih g hg fun e he => hns e (by simp [he])

end VolTrace

namespace DurTrace

/-- Ghost-instrumented per-device view of the durable mailbox: the
device's DynamoDB item tagged with an instance id, plus the fresh-id
counter. -/
structure GDur where
  item : Option (Nat × Item)
  nextId : Nat
deriving DecidableEq

/-- Initial state: no item for the device. -/
def gInit : GDur := ⟨none, 0⟩

/-- One trace step.  A submit performs the `PutItem` of
`src/laundryStart/main.go` lines 75-84 (whole item replaced,
`servedAt` intentionally absent).  A take performs the poll of
`src/laundryLatest/main.go` lines 75-109: empty when the item is
absent or tombstoned, otherwise deliver and mark served (the
best-effort `UpdateItem` modelled as succeeding, the sequential
reading of its read-then-write). -/
def gStep (g : GDur) : Ev → GDur × Option (Nat × Item)
  | .submit ty dur now =>
    ({ item := some (g.nextId,
        ⟨some ty, some (formatInt dur), some (formatInt now), none⟩),
       nextId := g.nextId + 1 }, none)
  | .take now =>
    match g.item with
    | none => (g, none)
    | some ki =>
      if ki.2.servedAt.isSome then (g, none)
      else ({ g with item := some (ki.1,
          { ki.2 with servedAt := some (formatInt now) }) }, some ki)

/-- Run a trace, collecting the per-event outputs. -/
def gRun (g : GDur) : List Ev → GDur × List (Option (Nat × Item))
  | [] => (g, [])
  | e :: es =>
    let s := gStep g e
    let r := gRun s.1 es
    (r.1, s.2 :: r.2)

/-- State after a trace from the initial state. -/
def gAfter (es : List Ev) : GDur := (gRun gInit es).1

/-- Outputs of a trace from the initial state. -/
def gOuts (es : List Ev) : List (Option (Nat × Item)) := (gRun gInit es).2

theorem durRun_append (a : List Ev) :
    ∀ (b : List Ev) (g : GDur),
      (gRun g (a ++ b)).1 = (gRun (gRun g a).1 b).1 := by
  induction a with
  | nil => intro b g; rfl
  | cons e a ih =>
    intro b g
    simp only [List.cons_append, gRun]
    exact ih b (gStep g e).1

/-- Durable trace invariant: output ids are fresh-bounded, the stored
instance's id is fresh-bounded, a stored instance whose id was output
carries the tombstone, and output ids are pairwise distinct. -/
def GInv (g : GDur) (outs : List Nat) : Prop :=
  (∀ k ∈ outs, k < g.nextId) ∧
  (∀ ki : Nat × Item, g.item = some ki → ki.1 < g.nextId) ∧
  (∀ ki : Nat × Item, g.item = some ki → ki.1 ∈ outs →
    ki.2.servedAt.isSome) ∧
  outs.Nodup

theorem durStep_inv (g : GDur) (e : Ev) (outs : List Nat)
    (h : GInv g outs) :
    GInv (gStep g e).1 (outs ++ takenIds [(gStep g e).2]) := by
  obtain ⟨h1, h2, h3, h4⟩ := h
  cases e with
  | submit ty dur now =>
    simp only [gStep, takenIds_one_none, List.append_nil]
    refine ⟨fun k hk => Nat.lt_succ_of_lt (h1 k hk), ?_, ?_, h4⟩
    · intro ki hki
      injection hki with hki
      rw [← hki]
      exact Nat.lt_succ_self _
    · intro ki hki hmem
      injection hki with hki
      rw [← hki] at hmem
      exact absurd (h1 _ hmem) (Nat.lt_irrefl _)
  | take now =>
    cases hl : g.item with
    | none =>
      simp only [gStep, hl, takenIds_one_none, List.append_nil]
      exact ⟨h1, h2, h3, h4⟩
    | some ki =>
      by_cases hb : ki.2.servedAt.isSome
      · simp only [gStep, hl, if_pos hb, takenIds_one_none, List.append_nil]
        exact ⟨h1, h2, h3, h4⟩
      · have hni : ki.1 ∉ outs := fun hmem => hb (h3 ki hl hmem)
        simp only [gStep, hl, if_neg hb, takenIds_one_some]
        refine ⟨?_, ?_, ?_, ?_⟩
        · intro k hk
          rcases List.mem_append.mp hk with hk | hk
          · exact h1 k hk
          · rw [List.mem_singleton.mp hk]
            exact h2 ki hl
        · intro ki' hki'
          have heq : some (ki.1, { ki.2 with servedAt := some (formatInt now) })
              = some ki' := hki'
          injection heq with heq
          rw [← heq]
          exact h2 ki hl
        · intro ki' hki' _
          have heq : some (ki.1, { ki.2 with servedAt := some (formatInt now) })
              = some ki' := hki'
          injection heq with heq
          rw [← heq]
          simp
        · rw [List.nodup_append]
          exact ⟨h4, List.nodup_singleton _,
            fun a ha hb' => hni ((List.mem_singleton.mp hb') ▸ ha)⟩

theorem durRun_inv : ∀ (es : List Ev) (g : GDur) (outs : List Nat),
    GInv g outs → GInv (gRun g es).1 (outs ++ takenIds (gRun g es).2) := by
  intro es
  induction es with
  | nil =>
    intro g outs h
    simpa [gRun, takenIds] using h
  | cons e es ih =>
    intro g outs h
    have hstep := durStep_inv g e outs h
    have hrest := ih (gStep g e).1 (outs ++ takenIds [(gStep g e).2]) hstep
    simp only [gRun]
    rw [takenIds_cons, ← List.append_assoc]
    exact hrest

theorem durInit_inv : GInv gInit [] := by
  refine ⟨?_, ?_, ?_, ?_⟩ <;> simp [gInit, GInv]

/-- Serve-at-most-once over any sequential durable trace. -/
theorem durOuts_nodup (es : List Ev) : (takenIds (gOuts es)).Nodup := by
  have h := durRun_inv es gInit [] durInit_inv
  simpa [gOuts] using h.2.2.2

/-- A device state whose item (if any) carries the tombstone: every
further take returns empty until a new submit. -/
def Blocked (g : GDur) : Prop :=
  ∀ ki : Nat × Item, g.item = some ki → ki.2.servedAt.isSome

theorem durTake_some_blocked (g : GDur) (now : Int) (ki : Nat × Item)
    (h : (gStep g (.take now)).2 = some ki) :
    Blocked (gStep g (.take now)).1 := by
  cases hl : g.item with
  | none => simp [gStep, hl] at h
  | some ki0 =>
    by_cases hb : ki0.2.servedAt.isSome
    · simp [gStep, hl, if_pos hb] at h
    · intro ki' hki'
      simp only [gStep, hl, if_neg hb] at hki' ⊢
      injection hki' with hki'
      rw [← hki']
      simp

theorem durBlocked_take (g : GDur) (now : Int) (h : Blocked g) :
    gStep g (.take now) = (g, none) := by
  cases hl : g.item with
  | none => simp [gStep, hl]
  | some ki => simp [gStep, hl, if_pos (h ki hl)]

theorem durBlocked_run : ∀ (es : List Ev) (g : GDur),
    Blocked g → (∀ e ∈ es, e.isSubmit = false) → (gRun g es).1 = g := by
  intro es
  induction es with
  | nil => intro g _ _; rfl
  | cons e es ih =>
    intro g hg hns
    cases e with
    | submit ty dur now =>
      simpa [Ev.isSubmit] using hns (Ev.submit ty dur now) (List.mem_cons_self _ _)
    | take now =>
      simp only [gRun, durBlocked_take g now hg]
      exact ih g hg fun e he => hns e (by simp [he])

end DurTrace

/-! ## Concurrent polls

The volatile backend holds the process mutex `mu` for the whole
check-and-mark of `getLatest`, so a concurrent execution of two polls
is equivalent to running `getLatest` twice in sequence.  The durable
poll is not atomic: it is a `GetItem` micro-step followed by an
unconditional `UpdateItem` micro-step, and two invocations' micro-steps
may interleave. -/

namespace Race

/-- Atomic micro-steps of two concurrent durable poll invocations A
and B for the same device: each performs its `GetItem` read and then,
when its snapshot holds a deliverable command, its `UpdateItem`
mark-served write. -/
inductive TStep where
  | readA
  | writeA
  | readB
  | writeB
deriving DecidableEq

/-- What one durable poll invocation returns from its read snapshot
(`src/laundryLatest/main.go` lines 75-94): nothing when the item is
absent or tombstoned, otherwise the decoded command. -/
def pollOutput (d : String) (snap : Option Item) : Option CmdOut :=
  match snap with
  | none => none
  | some item =>
    if item.servedAt.isSome then none
    else some (LaundryLatest.decodeItem d item)

/-- Interleaving state: the shared table plus each invocation's read
snapshot (`none` until its read micro-step ran). -/
structure RaceSt where
  table : List (String × Item)
  snapA : Option (Option Item)
  snapB : Option (Option Item)
deriving DecidableEq

/-- The mark-served write of one invocation against the shared table,
performed exactly when its control flow reaches `UpdateItem` (its
snapshot decoded to a deliverable command). -/
def writeBack (d : String) (now : Int) (snap : Option (Option Item))
    (table : List (String × Item)) : List (String × Item) :=
  match snap with
  | some s =>
    if (pollOutput d s).isSome then LaundryLatest.markServed table d now
    else table
  | none => table

/-- One interleaving micro-step. -/
def raceStep (d : String) (nowA nowB : Int) (s : RaceSt) : TStep → RaceSt
  | .readA => { s with snapA := some (alookup s.table d) }
  | .readB => { s with snapB := some (alookup s.table d) }
  | .writeA => { s with table := writeBack d nowA s.snapA s.table }
  | .writeB => { s with table := writeBack d nowB s.snapB s.table }

/-- Run a schedule of micro-steps. -/
def raceRun (d : String) (nowA nowB : Int) (s : RaceSt) :
    List TStep → RaceSt
  | [] => s
  | t :: ts => raceRun d nowA nowB (raceStep d nowA nowB s t) ts

/-- The value invocation A returns once both its steps ran. -/
def outA (d : String) (s : RaceSt) : Option CmdOut :=
  s.snapA.bind (pollOutput d)

/-- The value invocation B returns once both its steps ran. -/
def outB (d : String) (s : RaceSt) : Option CmdOut :=
  s.snapB.bind (pollOutput d)

end Race

/-! ## Authorization helper facts -/

theorem authOkVol (token secret : String) (htok : token = secret)
    (hsec : secret ≠ "") :
    ¬ (token = "" ∨ ¬ timingSafeEq token secret) := by
  rintro (h | h)
  · exact hsec (htok ▸ h)
  · exact h ((timingSafeEq_iff token secret).mpr htok)

theorem authOkDur (token secret : String) (htok : token = secret)
    (hsec : secret ≠ "") :
    ¬ (token = "" ∨ secret = "" ∨ ¬ timingSafeEq token secret) := by
  rintro (h | h | h)
  · exact hsec (htok ▸ h)
  · exact hsec h
  · exact h ((timingSafeEq_iff token secret).mpr htok)

theorem round2_hundredths (n : ℤ) :
    round2 ((n : ℚ) / 100) = (n : ℚ) / 100 := by
  unfold round2
  have h1 : ((n : ℚ) / 100) * 100 = (n : ℚ) := by field_simp
  rw [h1]
  have h2 : ⌊(n : ℚ) + 1 / 2⌋ = n := by
    rw [Int.floor_eq_iff]
    constructor
    · linarith
    · linarith
  rw [h2]

/-! ## The claims -/

/-- C10: on the poll and get-stats paths, deviceId validation precedes
authorization.  An empty (volatile) or whitespace-only-after-trim
(durable) deviceId draws status 400 whatever the token is, and a 401
can only arise for a non-empty deviceId. -/
theorem C10_deviceId_validation_precedes_auth
    (secret token deviceId : String) (stv : Volatile.State)
    (tbl : List (String × Item)) (stats : List (String × StatsItem))
    (now : Int) :
    (Volatile.getLatest secret stv "" token
      = (stv, ⟨400, errBody "deviceId required"⟩)) ∧
    (trimSpace deviceId = "" →
      LaundryLatest.handler secret tbl deviceId token now
        = (tbl, ⟨400, errBody "deviceId required"⟩)) ∧
    (trimSpace deviceId = "" →
      LaundryGetStats.handler secret stats deviceId token
        = ⟨400, errBody "deviceId required"⟩) ∧
    ((Volatile.getLatest secret stv deviceId token).2.status = 401 →
      deviceId ≠ "") ∧
    ((LaundryLatest.handler secret tbl deviceId token now).2.status = 401 →
      trimSpace deviceId ≠ "") ∧
    ((LaundryGetStats.handler secret stats deviceId token).status = 401 →
      trimSpace deviceId ≠ "") := by
  refine ⟨?_, ?_, ?_, ?_, ?_, ?_⟩
  · simp [Volatile.getLatest]
  · intro h
    simp [LaundryLatest.handler, h]
  · intro h
    simp [LaundryGetStats.handler, h]
  · intro h401 heq
    rw [heq] at h401
    simp [Volatile.getLatest] at h401
  · intro h401 heq
    simp [LaundryLatest.handler, heq] at h401
  · intro h401 heq
    simp [LaundryGetStats.handler, heq] at h401

/-- Witness for C10 at concrete inputs: empty or whitespace-only
deviceId with an invalid (even empty) token still gets 400, not 401. -/
theorem C10_witness :
    Volatile.getLatest "sec" ⟨[], []⟩ "" ""
      = (⟨[], []⟩, ⟨400, errBody "deviceId required"⟩) ∧
    LaundryLatest.handler "sec" [] "  " "bad" 5
      = ([], ⟨400, errBody "deviceId required"⟩) ∧
    LaundryGetStats.handler "sec" [] "  " ""
      = ⟨400, errBody "deviceId required"⟩ :=
  ⟨(C10_deviceId_validation_precedes_auth "sec" "" "" ⟨[], []⟩ [] [] 5).1,
   (C10_deviceId_validation_precedes_auth "sec" "bad" "  " ⟨[], []⟩ [] [] 5).2.1
     (by decide),
   (C10_deviceId_validation_precedes_auth "sec" "" "  " ⟨[], []⟩ [] [] 5).2.2.1
     (by decide)⟩

/-- C8: with a valid token and a device in the NoCommand state (no
stored command) or the Served state (stored command covered by the
marker), takeNext answers 200 with a null command and leaves the
mailbox state exactly as it was, in both backends. -/
theorem C8_idle_poll_returns_empty_unchanged
    (secret deviceId token : String) (stv : Volatile.State)
    (tbl : List (String × Item)) (now : Int)
    (hdv : deviceId ≠ "") (hdd : trimSpace deviceId ≠ "")
    (htok : token = secret) (hsec : secret ≠ "") :
    (alookup stv.latestByDevice deviceId = none →
      Volatile.getLatest secret stv deviceId token
        = (stv, ⟨200, .latest none⟩)) ∧
    (∀ cmd, alookup stv.latestByDevice deviceId = some cmd →
      stv.served deviceId ≥ cmd.createdAt →
      Volatile.getLatest secret stv deviceId token
        = (stv, ⟨200, .latest none⟩)) ∧
    (alookup tbl (trimSpace deviceId) = none →
      LaundryLatest.handler secret tbl deviceId token now
        = (tbl, ⟨200, .latest none⟩)) ∧
    (∀ item, alookup tbl (trimSpace deviceId) = some item →
      item.servedAt.isSome →
      LaundryLatest.handler secret tbl deviceId token now
        = (tbl, ⟨200, .latest none⟩)) := by
  refine ⟨?_, ?_, ?_, ?_⟩
  · intro h
    simp only [Volatile.getLatest, if_neg hdv,
      if_neg (authOkVol token secret htok hsec), h]
  · intro cmd h hserved
    simp only [Volatile.getLatest, if_neg hdv,
      if_neg (authOkVol token secret htok hsec), h, if_pos hserved]
  · intro h
    simp only [LaundryLatest.handler, if_neg hdd,
      if_neg (authOkDur token secret htok hsec), h]
  · intro item h hsv
    simp only [LaundryLatest.handler, if_neg hdd,
      if_neg (authOkDur token secret htok hsec), h, if_pos hsv]

/-- Witness for C8 at concrete inputs: an absent volatile command, a
served volatile command, an absent durable item and a tombstoned
durable item all poll as 200 with a null command, state untouched. -/
theorem C8_witness :
    Volatile.getLatest "s" ⟨[], []⟩ "D1" "s"
      = (⟨[], []⟩, ⟨200, .latest none⟩) ∧
    Volatile.getLatest "s" ⟨[("D1", ⟨"D1", "wash", 30, 5, ""⟩)], [("D1", 5)]⟩
        "D1" "s"
      = (⟨[("D1", ⟨"D1", "wash", 30, 5, ""⟩)], [("D1", 5)]⟩,
         ⟨200, .latest none⟩) ∧
    LaundryLatest.handler "s" [] "D1" "s" 9 = ([], ⟨200, .latest none⟩) ∧
    LaundryLatest.handler "s" [("D1", ⟨some "wash", some "30", some "5", some "6"⟩)]
        "D1" "s" 9
      = ([("D1", ⟨some "wash", some "30", some "5", some "6"⟩)],
         ⟨200, .latest none⟩) :=
  ⟨(C8_idle_poll_returns_empty_unchanged "s" "D1" "s" ⟨[], []⟩ [] 9
      (by decide) (by decide) rfl (by decide)).1 (by decide),
   (C8_idle_poll_returns_empty_unchanged "s" "D1" "s"
      ⟨[("D1", ⟨"D1", "wash", 30, 5, ""⟩)], [("D1", 5)]⟩ [] 9
      (by decide) (by decide) rfl (by decide)).2.1
      ⟨"D1", "wash", 30, 5, ""⟩ (by decide) (by decide),
   (C8_idle_poll_returns_empty_unchanged "s" "D1" "s" ⟨[], []⟩ [] 9
      (by decide) (by decide) rfl (by decide)).2.2.1 (by decide),
   (C8_idle_poll_returns_empty_unchanged "s" "D1" "s" ⟨[], []⟩
      [("D1", ⟨some "wash", some "30", some "5", some "6"⟩)] 9
      (by decide) (by decide) rfl (by decide)).2.2.2
      ⟨some "wash", some "30", some "5", some "6"⟩ (by decide) (by decide)⟩

/-- C4 fails as stated: the volatile `startMachine` does not trim the
deviceId, so a whitespace-only deviceId with a valid token passes
validation, is written to the store, and draws 200 — not 400, and the
state changes. -/
theorem C4_counterexample :
    Volatile.startMachine "s" ⟨[], []⟩ ⟨" ", "wash", 30, "s"⟩ 7
      = (⟨[(" ", ⟨" ", "wash", 30, 7, ""⟩)], []⟩,
         ⟨200, .obj [("ok", .boolean true), ("createdAt", .num 7)]⟩) := by
  decide

/-- C4 amended: with a valid token, a submit whose deviceId is empty
or missing is rejected with 400 and the store is not written, in both
backends; the durable backend also rejects whitespace-only deviceIds
this way (the volatile backend does not trim and accepts them).  With
an invalid token the auth check fires first (401), and the store is
likewise never written. -/
theorem C4_amended_submit_empty_device_rejected
    (secret : String) (stv : Volatile.State) (tbl : List (String × Item))
    (reqv : Volatile.StartRequest) (reqd : LaundryStart.StartRequest)
    (now now2 : Int)
    (htokv : reqv.token = secret) (htokd : reqd.token = secret)
    (hsec : secret ≠ "") :
    (reqv.deviceId = "" →
      Volatile.startMachine secret stv reqv now
        = (stv, ⟨400, errBody "deviceId required"⟩)) ∧
    (trimSpace reqd.deviceId = "" →
      LaundryStart.handler secret tbl reqd now2
        = (tbl, ⟨400, errBody "deviceId required"⟩)) := by
  constructor
  · intro h
    simp only [Volatile.startMachine,
      if_neg (authOkVol reqv.token secret htokv hsec), if_pos h]
  · intro h
    simp [LaundryStart.handler,
      if_neg (authOkDur reqd.token secret htokd hsec), h]
    exact ⟨fun ht => hsec (htokd ▸ ht), hsec, (timingSafeEq_iff _ _).mpr htokd⟩

/-- Witness for amended C4 at concrete inputs: an empty deviceId in the
volatile backend, a whitespace-only deviceId in the durable backend. -/
theorem C4_witness :
    Volatile.startMachine "s" ⟨[], []⟩ ⟨"", "wash", 30, "s"⟩ 7
      = (⟨[], []⟩, ⟨400, errBody "deviceId required"⟩) ∧
    LaundryStart.handler "s" [] ⟨" ", "wash", 30, "s"⟩ 7
      = ([], ⟨400, errBody "deviceId required"⟩) :=
  ⟨(C4_amended_submit_empty_device_rejected "s" ⟨[], []⟩ []
      ⟨"", "wash", 30, "s"⟩ ⟨" ", "wash", 30, "s"⟩ 7 7 rfl rfl
      (by decide)).1 (by decide),
   (C4_amended_submit_empty_device_rejected "s" ⟨[], []⟩ []
      ⟨"", "wash", 30, "s"⟩ ⟨" ", "wash", 30, "s"⟩ 7 7 rfl rfl
      (by decide)).2 (by decide)⟩

/-- A bad token in the durable backends' sense (empty token, empty
secret, or mismatch) is also bad in the volatile backend's sense
(empty token or mismatch): with an empty secret, any token either is
empty or differs from the secret. -/
theorem volBadOfDurBad (token secret : String)
    (h : token = "" ∨ secret = "" ∨ ¬ timingSafeEq token secret) :
    token = "" ∨ ¬ timingSafeEq token secret := by
  rcases h with h | h | h
  · exact Or.inl h
  · by_cases ht : token = ""
    · exact Or.inl ht
    · refine Or.inr ?_
      rw [timingSafeEq_iff]
      intro he
      exact ht (h ▸ he)
  · exact Or.inr h

/-- C5 fails as stated: on the poll path the deviceId check precedes
auth, so a request with an empty token and an empty deviceId draws
400, not 401, even though the secret is configured. -/
theorem C5_counterexample :
    (Volatile.getLatest "s" ⟨[], []⟩ "" "").2.status = 400 := by
  decide

/-- C5 amended: every operation fails closed — it returns 401 and
leaves every store unchanged whenever the supplied token is empty, the
configured secret is empty or unconfigured, or the token differs from
the secret byte-for-byte — provided the request passes the checks that
precede the auth check (a decodable body, and for poll and get-stats a
deviceId that survives the emptiness check); such requests never
modify any store. -/
theorem C5_amended_auth_fails_closed
    (secret token deviceId : String) (stv : Volatile.State)
    (tbl : List (String × Item)) (stats : List (String × StatsItem))
    (reqv : Volatile.StartRequest) (reqd : LaundryStart.StartRequest)
    (requ : LaundryUpdateStats.UpdateRequest) (now : Int)
    (hbv : reqv.token = "" ∨ secret = "" ∨ ¬ timingSafeEq reqv.token secret)
    (hbd : reqd.token = "" ∨ secret = "" ∨ ¬ timingSafeEq reqd.token secret)
    (hbu : requ.token = "" ∨ secret = "" ∨ ¬ timingSafeEq requ.token secret)
    (hbq : token = "" ∨ secret = "" ∨ ¬ timingSafeEq token secret)
    (hdv : deviceId ≠ "") (hdd : trimSpace deviceId ≠ "") :
    Volatile.startMachine secret stv reqv now
      = (stv, ⟨401, errBody "unauthorized"⟩) ∧
    Volatile.getLatest secret stv deviceId token
      = (stv, ⟨401, errBody "unauthorized"⟩) ∧
    LaundryStart.handler secret tbl reqd now
      = (tbl, ⟨401, errBody "unauthorized"⟩) ∧
    LaundryLatest.handler secret tbl deviceId token now
      = (tbl, ⟨401, errBody "unauthorized"⟩) ∧
    LaundryGetStats.handler secret stats deviceId token
      = ⟨401, errBody "unauthorized"⟩ ∧
    LaundryUpdateStats.handler secret stats requ now
      = (stats, ⟨401, errBody "unauthorized"⟩) := by
  refine ⟨?_, ?_, ?_, ?_, ?_, ?_⟩
  · simp only [Volatile.startMachine,
      if_pos (volBadOfDurBad reqv.token secret hbv)]
  · simp only [Volatile.getLatest, if_neg hdv,
      if_pos (volBadOfDurBad token secret hbq)]
  · simp only [LaundryStart.handler, if_pos hbd]
  · simp only [LaundryLatest.handler, if_neg hdd, if_pos hbq]
  · simp only [LaundryGetStats.handler, if_neg hdd, if_pos hbq]
  · simp only [LaundryUpdateStats.handler, if_pos hbu]

/-- Witness for amended C5 at concrete inputs: empty token against a
configured secret, on every operation, with a non-empty deviceId. -/
theorem C5_witness :
    Volatile.startMachine "s" ⟨[], []⟩ ⟨"D1", "wash", 30, ""⟩ 7
      = (⟨[], []⟩, ⟨401, errBody "unauthorized"⟩) ∧
    Volatile.getLatest "s" ⟨[], []⟩ "D1" ""
      = (⟨[], []⟩, ⟨401, errBody "unauthorized"⟩) ∧
    LaundryStart.handler "s" [] ⟨"D1", "wash", 30, ""⟩ 7
      = ([], ⟨401, errBody "unauthorized"⟩) ∧
    LaundryLatest.handler "s" [] "D1" "" 7
      = ([], ⟨401, errBody "unauthorized"⟩) ∧
    LaundryGetStats.handler "s" [] "D1" ""
      = ⟨401, errBody "unauthorized"⟩ ∧
    LaundryUpdateStats.handler "s" [] ⟨"D1", 0, 0, ""⟩ 7
      = ([], ⟨401, errBody "unauthorized"⟩) :=
  C5_amended_auth_fails_closed "s" "" "D1" ⟨[], []⟩ [] []
    ⟨"D1", "wash", 30, ""⟩ ⟨"D1", "wash", 30, ""⟩ ⟨"D1", 0, 0, ""⟩ 7
    (Or.inl rfl) (Or.inl rfl) (Or.inl rfl) (Or.inl rfl)
    (by decide) (by decide)

/-- C7 fails as stated: the successful update-stats response carries
`lastUpdatedAt` as a JSON string (the handler puts `updatedAtStr`, a
`strconv.FormatInt` result, into the body), not as a JSON integer. -/
theorem C7_counterexample :
    (LaundryUpdateStats.handler "s" [] ⟨"D1", 3 / 2, 4, "s"⟩ 7).2.body.field
        "lastUpdatedAt" = some (.str "7")
    ∧ JsonVal.isNumber (.str "7") = false := by
  exact ⟨by decide, rfl⟩

/-- C7 amended: for every successful update-stats request the response
is status 200 with body `{ok: true, lastUpdatedAt: s}` where `s` is
the decimal string (a JSON string, not an integer) of the millisecond
timestamp assigned at write time. -/
theorem C7_amended_lastUpdatedAt_is_string
    (secret : String) (stats : List (String × StatsItem))
    (req : LaundryUpdateStats.UpdateRequest) (now : Int)
    (htok : req.token = secret) (hsec : secret ≠ "")
    (hdev : trimSpace req.deviceId ≠ "") :
    (LaundryUpdateStats.handler secret stats req now).2
      = ⟨200, .obj [("ok", .boolean true),
          ("lastUpdatedAt", .str (formatInt now))]⟩ := by
  simp only [LaundryUpdateStats.handler,
    if_neg (authOkDur req.token secret htok hsec), if_neg hdev]

/-- Witness for amended C7 at a concrete input. -/
theorem C7_witness :
    (LaundryUpdateStats.handler "s" [] ⟨"D1", 3 / 2, 4, "s"⟩ 8).2
      = ⟨200, .obj [("ok", .boolean true),
          ("lastUpdatedAt", .str (formatInt 8))]⟩ :=
  C7_amended_lastUpdatedAt_is_string "s" [] ⟨"D1", 3 / 2, 4, "s"⟩ 8
    rfl (by decide) (by decide)

/-- C6: a successful stats write followed immediately by a read of the
same device returns exactly what was written — `numRuns` exactly, and
`totalSpent` rounded to two decimal places by the write-side
formatting, hence exactly whenever the written value already has at
most two decimals. -/
theorem C6_stats_roundtrip
    (secret : String) (stats : List (String × StatsItem))
    (req : LaundryUpdateStats.UpdateRequest) (now : Int)
    (htok : req.token = secret) (hsec : secret ≠ "")
    (hdev : trimSpace req.deviceId ≠ "") :
    LaundryGetStats.handler secret
        (LaundryUpdateStats.handler secret stats req now).1
        req.deviceId req.token
      = ⟨200, .stats ⟨trimSpace req.deviceId, round2 req.totalSpent,
          req.numRuns⟩⟩
    ∧ (∀ n : ℤ, req.totalSpent = (n : ℚ) / 100 →
        round2 req.totalSpent = req.totalSpent) := by
  constructor
  · have hupd : (LaundryUpdateStats.handler secret stats req now).1
        = aset stats (trimSpace req.deviceId)
            ⟨round2 req.totalSpent, req.numRuns, now⟩ := by
      simp only [LaundryUpdateStats.handler,
        if_neg (authOkDur req.token secret htok hsec), if_neg hdev]
    rw [hupd]
    simp only [LaundryGetStats.handler, if_neg hdev,
      if_neg (authOkDur req.token secret htok hsec), alookup_aset_self]
  · intro n h
    rw [h]
    exact round2_hundredths n

/-- Witness for C6 at a concrete input: write totalSpent 157/100 (an
exact two-decimal amount) and numRuns 4, read back the same values. -/
theorem C6_witness :
    LaundryGetStats.handler "s"
        (LaundryUpdateStats.handler "s" [] ⟨"D1", 157 / 100, 4, "s"⟩ 7).1
        "D1" "s"
      = ⟨200, .stats ⟨trimSpace "D1", round2 (157 / 100), 4⟩⟩
    ∧ round2 ((157 : ℤ) / 100 : ℚ) = ((157 : ℤ) : ℚ) / 100 :=
  ⟨(C6_stats_roundtrip "s" [] ⟨"D1", 157 / 100, 4, "s"⟩ 7 rfl (by decide)
      (by decide)).1,
   by
    have h := (C6_stats_roundtrip "s" [] ⟨"D1", ((157 : ℤ) : ℚ) / 100, 4, "s"⟩ 7
      rfl (by decide) (by decide)).2 157 rfl
    simpa using h⟩

/-- C9 fails as stated: on a leading digit run whose value reaches
2 ^ 64, the Go `int64` accumulation of `mustInt64` wraps, so the
decoded value is not the integer value of the longest leading run of
decimal digits. -/
theorem C9_counterexample :
    mustInt64 "18446744073709551617x" = 1
    ∧ leadingRunValue "18446744073709551617x" = 18446744073709551617 := by
  exact ⟨by decide, by decide⟩

/-- C9 amended: the durable poll path never reports a decode error —
`mustInt64` silently decodes every attribute string to the integer
value of its longest leading run of decimal digits reduced modulo
2 ^ 64 and reinterpreted as a signed 64-bit value (0 when the string
starts with a non-digit such as a minus sign, and the exact run value
whenever it is below 2 ^ 63) — and the stored command is returned with
status 200 carrying exactly those decoded values. -/
theorem C9_amended_mustInt64_silent
    (s : String) (secret deviceId token : String)
    (tbl : List (String × Item)) (item : Item) (now : Int)
    (htok : token = secret) (hsec : secret ≠ "")
    (hdev : trimSpace deviceId ≠ "")
    (hit : alookup tbl (trimSpace deviceId) = some item)
    (hsv : item.servedAt = none) :
    mustInt64 s = toInt64 (leadingRunValue s % 2 ^ 64)
    ∧ LaundryLatest.handler secret tbl deviceId token now
        = (LaundryLatest.markServed tbl (trimSpace deviceId) now,
           ⟨200, .latest (some (LaundryLatest.decodeItem
              (trimSpace deviceId) item))⟩) := by
  constructor
  · exact mustInt64_eq_leadingRun s
  · have hsv' : item.servedAt.isSome = false := by rw [hsv]; rfl
    simp only [LaundryLatest.handler, if_neg hdev,
      if_neg (authOkDur token secret htok hsec), hit, hsv',
      Bool.false_eq_true, if_false]

/-- Witness for amended C9 at concrete inputs: a stored item whose
duration attribute is the malformed string `12a3` and whose createdAt
attribute is `-7` is decoded (12 and 0) and served with 200. -/
theorem C9_witness :
    mustInt64 "12a3" = toInt64 (leadingRunValue "12a3" % 2 ^ 64)
    ∧ LaundryLatest.handler "s" [("D1", ⟨some "wash", some "12a3", some "-7", none⟩)]
        "D1" "s" 9
      = (LaundryLatest.markServed [("D1", ⟨some "wash", some "12a3", some "-7", none⟩)]
           (trimSpace "D1") 9,
         ⟨200, .latest (some (LaundryLatest.decodeItem (trimSpace "D1")
            ⟨some "wash", some "12a3", some "-7", none⟩))⟩) :=
  C9_amended_mustInt64_silent "12a3" "s" "D1" "s"
    [("D1", ⟨some "wash", some "12a3", some "-7", none⟩)]
    ⟨some "wash", some "12a3", some "-7", none⟩ 9
    rfl (by decide) (by decide) (by decide) rfl

/-- C3 fails as stated: the volatile backend's submit does not reset
the consumption marker.  With the watermark at 5 (previous command
served at timestamp 5), a new submit whose assigned `createdAt` is
also 5 (the millisecond clock did not advance) is stored, yet the
immediately following takeNext returns empty — the new command is
never delivered. -/
theorem C3_counterexample :
    (Volatile.getLatest "s"
        (Volatile.startMachine "s" ⟨[], [("D1", 5)]⟩ ⟨"D1", "wash", 30, "s"⟩ 5).1
        "D1" "s").2
      = ⟨200, .latest none⟩ := by
  decide

/-- C3 amended: a successful submit unconditionally replaces any
existing pending command for the device.  In the durable backend the
replacing item carries no `servedAt`, so the consumption marker is
reset and the immediately following takeNext returns the new command
whatever the previous state was.  In the volatile backend the
watermark is left untouched, so the immediately following takeNext
returns the new command exactly when its `createdAt` strictly exceeds
the device's watermark, and returns empty otherwise. -/
theorem C3_amended_put_replaces_marker
    (secret token : String) (stv : Volatile.State)
    (tbl : List (String × Item))
    (reqv : Volatile.StartRequest) (reqd : LaundryStart.StartRequest)
    (now now2 : Int)
    (htokv : reqv.token = secret) (htokd : reqd.token = secret)
    (htok : token = secret) (hsec : secret ≠ "")
    (hdv : reqv.deviceId ≠ "") (hdd : trimSpace reqd.deviceId ≠ "")
    (htyv : reqv.type = "wash" ∨ reqv.type = "dry")
    (htyd : reqd.type = "wash" ∨ reqd.type = "dry")
    (hduv : 0 < reqv.durationMinutes) (hdud : 0 < reqd.durationMinutes)
    (hdu63 : reqd.durationMinutes < 2 ^ 63)
    (hnow0 : 0 ≤ now) (hnow63 : now < 2 ^ 63) :
    (LaundryLatest.handler secret (LaundryStart.handler secret tbl reqd now).1
        reqd.deviceId token now2).2
      = ⟨200, .latest (some ⟨trimSpace reqd.deviceId, reqd.type,
          reqd.durationMinutes, now⟩)⟩
    ∧ (Volatile.getLatest secret
        (Volatile.startMachine secret stv reqv now).1 reqv.deviceId token).2
      = (if stv.served reqv.deviceId < now
         then ⟨200, .latest (some ⟨reqv.deviceId, reqv.type,
                reqv.durationMinutes, now⟩)⟩
         else ⟨200, .latest none⟩) := by
  have htyd' : ¬ (reqd.type ≠ "wash" ∧ reqd.type ≠ "dry") := by
    rcases htyd with h | h
    · exact fun hc => hc.1 h
    · exact fun hc => hc.2 h
  have htyv' : ¬ (reqv.type ≠ "wash" ∧ reqv.type ≠ "dry") := by
    rcases htyv with h | h
    · exact fun hc => hc.1 h
    · exact fun hc => hc.2 h
  constructor
  · have hstart : (LaundryStart.handler secret tbl reqd now).1
        = aset tbl (trimSpace reqd.deviceId)
            ⟨some reqd.type, some (formatInt reqd.durationMinutes),
             some (formatInt now), none⟩ := by
      simp only [LaundryStart.handler,
        if_neg (authOkDur reqd.token secret htokd hsec), if_neg hdd,
        if_neg htyd', if_neg (not_le.mpr hdud)]
    rw [hstart]
    simp only [LaundryLatest.handler, if_neg hdd,
      if_neg (authOkDur token secret htok hsec), alookup_aset_self]
    simp [LaundryLatest.decodeItem,
      mustInt64_formatInt reqd.durationMinutes (le_of_lt hdud) hdu63,
      mustInt64_formatInt now hnow0 hnow63]
  · have hstart : (Volatile.startMachine secret stv reqv now).1
        = { stv with latestByDevice := (aset stv.latestByDevice reqv.deviceId
              ⟨reqv.deviceId, reqv.type, reqv.durationMinutes, now, ""⟩) } := by
      simp only [Volatile.startMachine,
        if_neg (authOkVol reqv.token secret htokv hsec), if_neg hdv,
        if_neg htyv', if_neg (not_le.mpr hduv)]
    rw [hstart]
    have hserved : Volatile.State.served
        { stv with latestByDevice := (aset stv.latestByDevice reqv.deviceId
            ⟨reqv.deviceId, reqv.type, reqv.durationMinutes, now, ""⟩) }
        reqv.deviceId = stv.served reqv.deviceId := rfl
    by_cases hlt : stv.served reqv.deviceId < now
    · simp only [Volatile.getLatest, if_neg hdv,
        if_neg (authOkVol token secret htok hsec), alookup_aset_self,
        hserved, if_neg (not_le.mpr hlt), if_pos hlt]
    · simp only [Volatile.getLatest, if_neg hdv,
        if_neg (authOkVol token secret htok hsec), alookup_aset_self,
        hserved, if_pos (not_lt.mp hlt), if_neg hlt]

/-- Witness for amended C3 at concrete inputs: in the durable backend
a resubmit over a served item is delivered again; in the volatile
backend the resubmitted command is delivered exactly because its
`createdAt` 9 exceeds the watermark 5. -/
theorem C3_witness :
    (LaundryLatest.handler "s"
        (LaundryStart.handler "s" [("D1", ⟨some "dry", some "20", some "5", some "6"⟩)]
          ⟨"D1", "wash", 30, "s"⟩ 9).1 "D1" "s" 11).2
      = ⟨200, .latest (some ⟨trimSpace "D1", "wash", 30, 9⟩)⟩
    ∧ (Volatile.getLatest "s"
        (Volatile.startMachine "s" ⟨[], [("D1", 5)]⟩ ⟨"D1", "wash", 30, "s"⟩ 9).1
        "D1" "s").2
      = (if Volatile.State.served ⟨[], [("D1", 5)]⟩ "D1" < 9
         then ⟨200, .latest (some ⟨"D1", "wash", 30, 9⟩)⟩
         else ⟨200, .latest none⟩) :=
  ⟨(C3_amended_put_replaces_marker "s" "s" ⟨[], [("D1", 5)]⟩
      [("D1", ⟨some "dry", some "20", some "5", some "6"⟩)]
      ⟨"D1", "wash", 30, "s"⟩ ⟨"D1", "wash", 30, "s"⟩ 9 11
      rfl rfl rfl (by decide) (by decide) (by decide)
      (Or.inl rfl) (Or.inl rfl) (by decide) (by decide) (by decide)
      (by decide) (by decide)).1,
   (C3_amended_put_replaces_marker "s" "s" ⟨[], [("D1", 5)]⟩
      [("D1", ⟨some "dry", some "20", some "5", some "6"⟩)]
      ⟨"D1", "wash", 30, "s"⟩ ⟨"D1", "wash", 30, "s"⟩ 9 11
      rfl rfl rfl (by decide) (by decide) (by decide)
      (Or.inl rfl) (Or.inl rfl) (by decide) (by decide) (by decide)
      (by decide) (by decide)).2⟩

/-- C2: under the volatile backend two polls for the same device — its
mutex serializes them, so a concurrent pair is one of the two
(identical) sequential orders — deliver at most one non-empty result,
for every state, device and token; under the durable backend the
read-then-unconditional-write poll admits the documented race: the
interleaving read-A, read-B, write-A, write-B of a pending command
returns that command to both callers. -/
theorem C2_concurrent_take_at_most_one
    (secret deviceId token : String) (stv : Volatile.State) :
    (¬ (isDelivery (Volatile.getLatest secret stv deviceId token).2 = true ∧
        isDelivery (Volatile.getLatest secret
          (Volatile.getLatest secret stv deviceId token).1 deviceId
          token).2 = true)) ∧
    (Race.outA "D1" (Race.raceRun "D1" 7 8
        ⟨[("D1", ⟨some "wash", some "30", some "5", none⟩)], none, none⟩
        [.readA, .readB, .writeA, .writeB])).isSome = true ∧
    (Race.outB "D1" (Race.raceRun "D1" 7 8
        ⟨[("D1", ⟨some "wash", some "30", some "5", none⟩)], none, none⟩
        [.readA, .readB, .writeA, .writeB])).isSome = true := by
  refine ⟨?_, by decide, by decide⟩
  rintro ⟨h1, h2⟩
  by_cases hd : deviceId = ""
  · simp [Volatile.getLatest, hd, isDelivery, errBody] at h1
  · by_cases ht0 : token = ""
    · simp [Volatile.getLatest, hd, ht0, isDelivery, errBody] at h1
    · by_cases hte : timingSafeEq token secret = true
      · cases hl : alookup stv.latestByDevice deviceId with
        | none =>
          simp [Volatile.getLatest, hd, ht0, hte, hl, isDelivery] at h1
        | some cmd =>
          by_cases hw : stv.served deviceId ≥ cmd.createdAt
          · simp [Volatile.getLatest, hd, ht0, hte, hl, hw, isDelivery] at h1
          · have hst1 : (Volatile.getLatest secret stv deviceId token).1
                = { stv with lastServedAt := (aset stv.lastServedAt deviceId
                      cmd.createdAt) } := by
              simp [Volatile.getLatest, hd, ht0, hte, hl, hw]
            rw [hst1] at h2
            have hw2 : Volatile.State.served
                { stv with lastServedAt := (aset stv.lastServedAt deviceId
                    cmd.createdAt) } deviceId ≥ cmd.createdAt := by
              unfold Volatile.State.served
              simp only [alookup_aset_self, Option.getD_some, ge_iff_le, le_refl]
            simp [Volatile.getLatest, hd, ht0, hte, hl, hw2, isDelivery] at h2
      · simp [Volatile.getLatest, hd, ht0, hte, isDelivery, errBody] at h1

/-- Witness for C2's volatile conjunct at a concrete pending state:
two back-to-back polls cannot both deliver. -/
theorem C2_witness :
    ¬ (isDelivery (Volatile.getLatest "s"
          ⟨[("D1", ⟨"D1", "wash", 30, 5, ""⟩)], []⟩ "D1" "s").2 = true ∧
       isDelivery (Volatile.getLatest "s"
          (Volatile.getLatest "s" ⟨[("D1", ⟨"D1", "wash", 30, 5, ""⟩)], []⟩
            "D1" "s").1 "D1" "s").2 = true) :=
  (C2_concurrent_take_at_most_one "s" "D1" "s"
    ⟨[("D1", ⟨"D1", "wash", 30, 5, ""⟩)], []⟩).1

/-- C1 fails as stated: in the trace submit(id 0), submit(id 1), take,
take, the overwritten instance 0 is returned by no successful takeNext
at all (only instance 1 is ever delivered), so "exactly one" does not
hold per submitted instance. -/
theorem C1_counterexample :
    takenIds (VolTrace.gOuts "D1"
      [Ev.submit "wash" 30 1, Ev.submit "dry" 20 2, Ev.take 3, Ev.take 4])
      = [1]
    ∧ (VolTrace.gAfter "D1"
        [Ev.submit "wash" 30 1, Ev.submit "dry" 20 2, Ev.take 3, Ev.take 4]).nextId
      = 2 := by
  exact ⟨by decide, by decide⟩

/-- C1 amended: in any sequential trace of submits and takeNexts for a
device, each submitted command instance is returned by at most one
successful takeNext (exactly one when it is still the pending command
at some takeNext and, in the volatile backend, its createdAt exceeds
the served watermark), and after a successful takeNext every further
takeNext returns empty until a new submit occurs; a consumed command
instance is never returned again.  This holds in both backends. -/
theorem C1_amended_serve_at_most_once
    (d : String) (es q : List Ev) (n1 n2 n3 n4 : Int) :
    (takenIds (VolTrace.gOuts d es)).Nodup ∧
    (∀ kc : Nat × Volatile.Command,
      (VolTrace.gStep d (VolTrace.gAfter d es) (.take n1)).2 = some kc →
      (∀ e ∈ q, e.isSubmit = false) →
      (VolTrace.gStep d (VolTrace.gAfter d (es ++ Ev.take n1 :: q))
        (.take n2)).2 = none) ∧
    (takenIds (DurTrace.gOuts es)).Nodup ∧
    (∀ ki : Nat × Item,
      (DurTrace.gStep (DurTrace.gAfter es) (.take n3)).2 = some ki →
      (∀ e ∈ q, e.isSubmit = false) →
      (DurTrace.gStep (DurTrace.gAfter (es ++ Ev.take n3 :: q))
        (.take n4)).2 = none) := by
  refine ⟨VolTrace.outs_nodup d es, ?_, DurTrace.durOuts_nodup es, ?_⟩
  · intro kc hkc hq
    have hb := VolTrace.take_some_blocked d (VolTrace.gAfter d es) n1 kc hkc
    have hs : VolTrace.gAfter d (es ++ Ev.take n1 :: q)
        = (VolTrace.gStep d (VolTrace.gAfter d es) (.take n1)).1 := by
      unfold VolTrace.gAfter
      rw [VolTrace.gRun_append d es (Ev.take n1 :: q) VolTrace.gInit]
      simp only [VolTrace.gRun]
      exact VolTrace.blocked_run d q _ hb hq
    rw [hs, VolTrace.blocked_take d _ n2 hb]
  · intro ki hki hq
    have hb := DurTrace.durTake_some_blocked (DurTrace.gAfter es) n3 ki hki
    have hs : DurTrace.gAfter (es ++ Ev.take n3 :: q)
        = (DurTrace.gStep (DurTrace.gAfter es) (.take n3)).1 := by
      unfold DurTrace.gAfter
      rw [DurTrace.durRun_append es (Ev.take n3 :: q) DurTrace.gInit]
      simp only [DurTrace.gRun]
      exact DurTrace.durBlocked_run q _ hb hq
    rw [hs, DurTrace.durBlocked_take _ n4 hb]

/-- Witness for amended C1 at a concrete trace: after submit then a
successful take, the immediately following take returns empty, in both
backends. -/
theorem C1_witness :
    (VolTrace.gStep "D1"
        (VolTrace.gAfter "D1" ([Ev.submit "wash" 30 1] ++ Ev.take 2 :: []))
        (.take 3)).2 = none
    ∧ (DurTrace.gStep
        (DurTrace.gAfter ([Ev.submit "wash" 30 1] ++ Ev.take 2 :: []))
        (.take 3)).2 = none :=
  ⟨(C1_amended_serve_at_most_once "D1" [Ev.submit "wash" 30 1] [] 2 3 2 3).2.1
      (0, ⟨"D1", "wash", 30, 1, ""⟩) (by decide) (by decide),
   (C1_amended_serve_at_most_once "D1" [Ev.submit "wash" 30 1] [] 2 3 2 3).2.2.2
      (0, ⟨some "wash", some (formatInt 30), some (formatInt 1), none⟩)
      (by decide) (by decide)⟩

end LaundryOS
